import Mathlib

/-!
Shallow embedding of the `blueshift_native_amm` program (a two-token
constant-product liquidity pool) and proofs about its instruction handlers.

Embedding conventions:
* Machine integers (`u64`, `u16`, `u8`) are modelled as `Nat`; the `i64`
  timestamps are modelled as `Int` (byte decoders interpret the raw eight
  bytes as two-complement values).
* Instruction payload bytes are `List Nat`, each entry one byte.
* Fallible Rust code returning `Result<_, ProgramError>` becomes
  `Except ProgramError _`.  An instruction that returns an error performs no
  state mutation (the host rolls back every account write of a failed
  instruction), which the embedding reflects by having `process` return the
  whole new account state only in the `ok` case.
* The on-chain account state an instruction can read or write is collected
  in one `Pool` record: the config account, the two reserve ("vault") token
  accounts, the share ("LP") mint supply, and the three token
  accounts.  The address-derivation checks and the `Config::load`
  length/owner checks depend only on which accounts the caller supplied, so
  they are modelled as boolean fields of `Pool`.
* The external token-ledger operations `Transfer` / `MintTo` / `Burn` are
  modelled per the collaborator contract of the spec: atomic balance moves that
  fail (aborting the instruction) when the source balance is insufficient.
-/

namespace NativeAmm

/-- Errors of the embedded program.  The constructors used by the AMM source
are kept by name; `External n` stands for an error propagated out of a CPI
into an external program (system program or token ledger). -/
inductive ProgramError where
  | NotEnoughAccountKeys
  | InvalidInstructionData
  | InvalidAccountData
  | InvalidAccountOwner
  | InvalidArgument
  | Custom (code : Nat)
  | External (code : Nat)
deriving DecidableEq

-- The `AmmState` enum of `state.rs`, as its `u8` representation values.
namespace AmmState

def Uninitialized : Nat := 0

def Initialized : Nat := 1

def Disabled : Nat := 2

def WithdrawOnly : Nat := 3

end AmmState

/-- The `Config` record of `state.rs` (field values after decoding: `seed`
and `fee` are read little-endian by the getters; the 32-byte keys stay as
byte lists). -/
structure Config where
  state : Nat
  seed : Nat
  authority : List Nat
  mint_x : List Nat
  mint_y : List Nat
  fee : Nat
  config_bump : Nat
deriving DecidableEq

/-- A freshly created, zero-filled config account. -/
def Config.zeroed : Config :=
  { state := 0, seed := 0, authority := List.replicate 32 0,
    mint_x := List.replicate 32 0, mint_y := List.replicate 32 0,
    fee := 0, config_bump := 0 }

/-- `Config::set_state`: rejects any value above `WithdrawOnly`. -/
def Config.set_state (c : Config) (s : Nat) : Except ProgramError Config :=
  if AmmState.WithdrawOnly < s then .error .InvalidAccountData
  else .ok { c with state := s }

/-- `Config::set_fee`: rejects any fee of 10000 basis points or more. -/
def Config.set_fee (c : Config) (fee : Nat) : Except ProgramError Config :=
  if 10000 ≤ fee then .error .InvalidAccountData
  else .ok { c with fee := fee }

/-- `Config::set_inner`: sets state to `Initialized`, then the identity
fields, then the fee (through the checked setter), then the bump. -/
def Config.set_inner (c : Config) (seed : Nat) (authority : List Nat)
    (mint_x mint_y : List Nat) (fee : Nat) (config_bump : Nat) :
    Except ProgramError Config :=
  match c.set_state AmmState.Initialized with
  | .error e => .error e
  | .ok c1 =>
    let c2 := { c1 with seed := seed, authority := authority,
                        mint_x := mint_x, mint_y := mint_y }
    match c2.set_fee fee with
    | .error e => .error e
    | .ok c3 => .ok { c3 with config_bump := config_bump }

/-- Little-endian byte-list decoding (first byte least significant). -/
def readLE (bs : List Nat) : Nat :=
  bs.foldr (fun b acc => b + 256 * acc) 0

/-- Reinterpret an unsigned 64-bit value as a two-complement `i64`. -/
def toI64 (n : Nat) : Int :=
  if n < 2 ^ 63 then (n : Int) else (n : Int) - 2 ^ 64

/-! ### Instruction payloads and their decoders -/

/-- `DepositInstructionData` (`deposit.rs`): 8+8+8+8 bytes, packed LE. -/
structure DepositInstructionData where
  amount : Nat
  max_x : Nat
  max_y : Nat
  expiration : Int
deriving DecidableEq

/-- `DepositInstructionData::try_from`: the payload must be exactly 32
bytes; the four fields are read little-endian. -/
def DepositInstructionData.try_from (data : List Nat) :
    Except ProgramError DepositInstructionData :=
  if data.length = 32 then
    .ok { amount := readLE (data.take 8),
          max_x := readLE ((data.drop 8).take 8),
          max_y := readLE ((data.drop 16).take 8),
          expiration := toI64 (readLE ((data.drop 24).take 8)) }
  else .error .InvalidInstructionData

/-- `Deposit::try_from` (data half): decode, then reject a zero `amount`,
`max_x` or `max_y`. -/
def Deposit.try_from (data : List Nat) :
    Except ProgramError DepositInstructionData :=
  match DepositInstructionData.try_from data with
  | .error e => .error e
  | .ok d =>
    if d.amount = 0 ∨ d.max_x = 0 ∨ d.max_y = 0 then
      .error .InvalidInstructionData
    else .ok d

/-- `WithdrawInstructionData` (`withdraw.rs`): 8+8+8+8 bytes, packed LE. -/
structure WithdrawInstructionData where
  amount : Nat
  min_x : Nat
  min_y : Nat
  expiration : Int
deriving DecidableEq

/-- `WithdrawInstructionData::try_from`: exactly 32 bytes, fields LE. -/
def WithdrawInstructionData.try_from (data : List Nat) :
    Except ProgramError WithdrawInstructionData :=
  if data.length = 32 then
    .ok { amount := readLE (data.take 8),
          min_x := readLE ((data.drop 8).take 8),
          min_y := readLE ((data.drop 16).take 8),
          expiration := toI64 (readLE ((data.drop 24).take 8)) }
  else .error .InvalidInstructionData

/-- `Withdraw::try_from` (data half): decode, then reject a zero `amount`
only — `min_x` and `min_y` are not constrained. -/
def Withdraw.try_from (data : List Nat) :
    Except ProgramError WithdrawInstructionData :=
  match WithdrawInstructionData.try_from data with
  | .error e => .error e
  | .ok d =>
    if d.amount = 0 then .error .InvalidInstructionData
    else .ok d

/-- `SwapInstructionData` (`swap.rs`): 1+8+8+8 bytes, packed LE; the first
byte is the direction flag stored as a `u8`. -/
structure SwapInstructionData where
  is_x : Nat
  amount : Nat
  min : Nat
  expiration : Int
deriving DecidableEq

/-- `SwapInstructionData::is_x()`: any nonzero flag byte means "input is
token X". -/
def SwapInstructionData.isX (d : SwapInstructionData) : Bool :=
  d.is_x != 0

/-- `SwapInstructionData::try_from`: exactly 25 bytes, fields LE. -/
def SwapInstructionData.try_from (data : List Nat) :
    Except ProgramError SwapInstructionData :=
  if data.length = 25 then
    .ok { is_x := data.headD 0,
          amount := readLE ((data.drop 1).take 8),
          min := readLE ((data.drop 9).take 8),
          expiration := toI64 (readLE ((data.drop 17).take 8)) }
  else .error .InvalidInstructionData

/-- `Swap::try_from` (data half): decode, then reject a zero `amount` or a
zero `min`. -/
def Swap.try_from (data : List Nat) :
    Except ProgramError SwapInstructionData :=
  match SwapInstructionData.try_from data with
  | .error e => .error e
  | .ok d =>
    if d.amount = 0 ∨ d.min = 0 then .error .InvalidInstructionData
    else .ok d

/-- `InitializeInstructionData` (`initialize.rs`): packed layout
seed(8) · fee(2) · mint_x(32) · mint_y(32) · config_bump(1) · lp_bump(1) ·
authority(32), 108 bytes in full, 76 bytes with the authority omitted. -/
structure InitializeInstructionData where
  seed : Nat
  fee : Nat
  mint_x : List Nat
  mint_y : List Nat
  config_bump : Nat
  lp_bump : Nat
  authority : List Nat
deriving DecidableEq

/-- `InitializeInstructionData::try_from`: accepts exactly the 108-byte
full layout and the 76-byte layout whose missing authority tail is
zero-filled; every other length is a decode error. -/
def InitializeInstructionData.try_from (data : List Nat) :
    Except ProgramError InitializeInstructionData :=
  if data.length = 108 ∨ data.length = 76 then
    .ok { seed := readLE (data.take 8),
          fee := readLE ((data.drop 8).take 2),
          mint_x := (data.drop 10).take 32,
          mint_y := (data.drop 42).take 32,
          config_bump := (data.drop 74).headD 0,
          lp_bump := (data.drop 75).headD 0,
          authority := if data.length = 108 then data.drop 76
                       else List.replicate 32 0 }
  else .error .InvalidInstructionData

/-! ### The curve library (external crate, modelled from the spec) -/

/-- Modelled from the spec: the effective swap input after the fee of the
external `constant_product_curve` crate (not part of this repository),
`amount * (10000 - fee) / 10000` in basis points. -/
def effectiveInput (amount fee : Nat) : Nat :=
  amount * (10000 - fee) / 10000

/-- Modelled from the spec: the constant-product swap output of the
external curve crate — the largest `o` with
`(rin + eff) * (rout - o) ≥ rin * rout`, namely
`o = rout * eff / (rin + eff)` rounded down. -/
def swapOutput (rin rout eff : Nat) : Nat :=
  rout * eff / (rin + eff)

/-- The `SwapResult` returned by the curve crate: `deposit` is what the
trader pays into the pool (the full input; fee proceeds stay in the
reserves) and `withdraw` is what the pool pays out. -/
structure SwapResult where
  deposit : Nat
  withdraw : Nat
deriving DecidableEq

/-- Modelled from the spec: `ConstantProduct::swap` of the external curve
crate for reserves `(rx, ry)`; picks the input/output reserve from the
direction, applies the fee, computes the constant-product output and fails
(slippage) when the output is below `minOut`. -/
def ConstantProduct.swap (rx ry fee : Nat) (isx : Bool)
    (amount minOut : Nat) : Except ProgramError SwapResult :=
  if swapOutput (if isx then rx else ry) (if isx then ry else rx)
      (effectiveInput amount fee) < minOut then
    .error (.Custom 0)
  else
    .ok { deposit := amount,
          withdraw := swapOutput (if isx then rx else ry)
            (if isx then ry else rx) (effectiveInput amount fee) }

/-- The `XYAmounts` pair returned by the deposit/withdraw
share math. -/
structure XYAmounts where
  x : Nat
  y : Nat
deriving DecidableEq

/-- Modelled from the spec: `ConstantProduct::xy_deposit_amounts_from_l` of
the external curve crate — the reserve amounts a deposit of `a` new shares
against supply `l` requires, the proportional share of each reserve rounded
up (the depositor never contributes less than their fair share); errors on
a zero supply.  The `precision` argument mirrors the signature of the crate
(the decimal scale of the share mint); the spec fixes no finer role for it. -/
def ConstantProduct.xy_deposit_amounts_from_l (x y l a _precision : Nat) :
    Except ProgramError XYAmounts :=
  if l = 0 then .error (.Custom 0)
  else .ok { x := (x * a + (l - 1)) / l, y := (y * a + (l - 1)) / l }

/-- Modelled from the spec: `ConstantProduct::xy_withdraw_amounts_from_l`
of the external curve crate — the reserve amounts burning `a` shares
against supply `l` returns, the proportional share of each reserve rounded
down (the withdrawer never receives more than their exact share); errors on
a zero supply. -/
def ConstantProduct.xy_withdraw_amounts_from_l (x y l a _precision : Nat) :
    Except ProgramError XYAmounts :=
  if l = 0 then .error (.Custom 0)
  else .ok { x := x * a / l, y := y * a / l }

/-! ### The on-chain state an instruction touches -/

/-- The account state visible to one Deposit/Withdraw/Swap call.
`configLenOk`/`configOwnerOk` model the two checks of `Config::load`
(exact data length, owned by this program); `vaultXOk`/`vaultYOk` model
the associated-address derivation checks on the two reserve accounts.
`vaultX`/`vaultY` are the reserve token balances, `lpSupply` the share
supply of the share mint, and `userX`/`userY`/`userLp` the token balances
of the caller. -/
structure Pool where
  configLenOk : Bool
  configOwnerOk : Bool
  config : Config
  vaultXOk : Bool
  vaultYOk : Bool
  lpSupply : Nat
  vaultX : Nat
  vaultY : Nat
  userX : Nat
  userY : Nat
  userLp : Nat
deriving DecidableEq

/-- Step 6 of `Deposit::process`: the required `(x, y)` — the caller
ceilings taken literally on the first deposit of the pool (zero supply and
both reserves zero), the proportional round-up amounts of the curve crate
otherwise
(curve errors map to `InvalidArgument`). -/
def depositAmounts (p : Pool) (d : DepositInstructionData) :
    Except ProgramError (Nat × Nat) :=
  if p.lpSupply = 0 ∧ p.vaultX = 0 ∧ p.vaultY = 0 then .ok (d.max_x, d.max_y)
  else
    match ConstantProduct.xy_deposit_amounts_from_l
        p.vaultX p.vaultY p.lpSupply d.amount 6 with
    | .error _ => .error .InvalidArgument
    | .ok a => .ok (a.x, a.y)

/-- `Deposit::process`: expiry check, config load, state check, the two
vault address checks, amount computation, slippage check, the two reserve
transfers in, then the share mint. -/
def Deposit.process (now : Int) (d : DepositInstructionData) (p : Pool) :
    Except ProgramError Pool :=
  if d.expiration ≤ now then .error (.Custom 1)
  else if p.configLenOk = false then .error .InvalidAccountData
  else if p.configOwnerOk = false then .error .InvalidAccountOwner
  else if p.config.state ≠ AmmState.Initialized then .error .InvalidAccountData
  else if p.vaultXOk = false then .error .InvalidAccountData
  else if p.vaultYOk = false then .error .InvalidAccountData
  else
    match depositAmounts p d with
    | .error e => .error e
    | .ok (x, y) =>
      if ¬ (x ≤ d.max_x ∧ y ≤ d.max_y) then .error .InvalidArgument
      else if p.userX < x then .error (.External 0)
      else if p.userY < y then .error (.External 1)
      else
        .ok { p with
          userX := p.userX - x, vaultX := p.vaultX + x,
          userY := p.userY - y, vaultY := p.vaultY + y,
          lpSupply := p.lpSupply + d.amount, userLp := p.userLp + d.amount }

/-- Step 6 of `Withdraw::process`: the returned `(x, y)` — the entire
reserves when the burn amount equals the whole share supply, the curve
proportional round-down amounts of the curve crate otherwise (curve errors
map to
`InvalidArgument`). -/
def withdrawAmounts (p : Pool) (d : WithdrawInstructionData) :
    Except ProgramError (Nat × Nat) :=
  if p.lpSupply = d.amount then .ok (p.vaultX, p.vaultY)
  else
    match ConstantProduct.xy_withdraw_amounts_from_l
        p.vaultX p.vaultY p.lpSupply d.amount 6 with
    | .error _ => .error .InvalidArgument
    | .ok a => .ok (a.x, a.y)

/-- `Withdraw::process`: expiry check, config load, not-disabled check, the
two vault address checks, amount computation, slippage check, the two
reserve transfers out, then the share burn. -/
def Withdraw.process (now : Int) (d : WithdrawInstructionData) (p : Pool) :
    Except ProgramError Pool :=
  if d.expiration ≤ now then .error (.Custom 1)
  else if p.configLenOk = false then .error .InvalidAccountData
  else if p.configOwnerOk = false then .error .InvalidAccountOwner
  else if p.config.state = AmmState.Disabled then .error .InvalidAccountData
  else if p.vaultXOk = false then .error .InvalidAccountData
  else if p.vaultYOk = false then .error .InvalidAccountData
  else
    match withdrawAmounts p d with
    | .error e => .error e
    | .ok (x, y) =>
      if ¬ (d.min_x ≤ x ∧ d.min_y ≤ y) then .error .InvalidArgument
      else if p.vaultX < x then .error (.External 0)
      else if p.vaultY < y then .error (.External 1)
      else if p.userLp < d.amount then .error (.External 2)
      else
        .ok { p with
          vaultX := p.vaultX - x, userX := p.userX + x,
          vaultY := p.vaultY - y, userY := p.userY + y,
          lpSupply := p.lpSupply - d.amount, userLp := p.userLp - d.amount }

/-- `Swap::process`: expiry check, config load, state check, the two vault
address checks, the curve computation (curve errors map to `Custom 1`), the
degenerate-leg check, then the input transfer followed by the output
transfer in the chosen direction. -/
def Swap.process (now : Int) (d : SwapInstructionData) (p : Pool) :
    Except ProgramError Pool :=
  if d.expiration ≤ now then .error (.Custom 1)
  else if p.configLenOk = false then .error .InvalidAccountData
  else if p.configOwnerOk = false then .error .InvalidAccountOwner
  else if p.config.state ≠ AmmState.Initialized then .error .InvalidAccountData
  else if p.vaultXOk = false then .error .InvalidAccountData
  else if p.vaultYOk = false then .error .InvalidAccountData
  else
    match ConstantProduct.swap p.vaultX p.vaultY p.config.fee
        d.isX d.amount d.min with
    | .error _ => .error (.Custom 1)
    | .ok r =>
      if r.deposit = 0 ∨ r.withdraw = 0 then .error .InvalidArgument
      else if d.isX then
        if p.userX < r.deposit then .error (.External 0)
        else if p.vaultY < r.withdraw then .error (.External 1)
        else
          .ok { p with
            userX := p.userX - r.deposit, vaultX := p.vaultX + r.deposit,
            vaultY := p.vaultY - r.withdraw, userY := p.userY + r.withdraw }
      else
        if p.userY < r.deposit then .error (.External 0)
        else if p.vaultX < r.withdraw then .error (.External 1)
        else
          .ok { p with
            userY := p.userY - r.deposit, vaultY := p.vaultY + r.deposit,
            vaultX := p.vaultX - r.withdraw, userX := p.userX + r.withdraw }

/-- `Initialize::process`: create the config account (the external
system-program call, which fails when the account already exists — the
`createConfigOk` flag), populate it through `Config::set_inner`, then
create and initialize the share mint (`createMintOk`). -/
def Initialize.process (d : InitializeInstructionData)
    (createConfigOk createMintOk : Bool) : Except ProgramError Config :=
  if createConfigOk = false then .error (.External 0)
  else
    match Config.zeroed.set_inner d.seed d.authority d.mint_x d.mint_y
        d.fee d.config_bump with
    | .error e => .error e
    | .ok c => if createMintOk = false then .error (.External 1) else .ok c

/-- A sequence of swap instructions, each with its own clock reading, run
left to right; the whole run fails as soon as one swap fails. -/
def runSwaps : List (Int × SwapInstructionData) → Pool →
    Except ProgramError Pool
  | [], p => .ok p
  | (now, d) :: rest, p =>
    match Swap.process now d p with
    | .error e => .error e
    | .ok q => runSwaps rest q


/-! ### Concrete inputs used by the witness theorems -/

def c1Pool : Pool :=
  { configLenOk := true, configOwnerOk := true,
    config := { state := 1, seed := 0, authority := List.replicate 32 0,
                mint_x := List.replicate 32 0, mint_y := List.replicate 32 0,
                fee := 30, config_bump := 255 },
    vaultXOk := true, vaultYOk := true,
    lpSupply := 100, vaultX := 100, vaultY := 100,
    userX := 1000, userY := 1000, userLp := 0 }

def c1Data : SwapInstructionData :=
  { is_x := 1, amount := 10, min := 1, expiration := 10 }

def c1PoolAfter : Pool :=
  { c1Pool with vaultX := 110, vaultY := 92, userX := 990, userY := 1008 }

def c2PoolD : Pool :=
  { configLenOk := true, configOwnerOk := true,
    config := { state := 1, seed := 0, authority := List.replicate 32 0,
                mint_x := List.replicate 32 0, mint_y := List.replicate 32 0,
                fee := 0, config_bump := 255 },
    vaultXOk := true, vaultYOk := true,
    lpSupply := 100, vaultX := 100, vaultY := 100,
    userX := 1000, userY := 1000, userLp := 100 }

def c2DataD : DepositInstructionData :=
  { amount := 50, max_x := 10, max_y := 10, expiration := 10 }

def c2DataW : WithdrawInstructionData :=
  { amount := 50, min_x := 60, min_y := 60, expiration := 10 }

def c2DataS : SwapInstructionData :=
  { is_x := 1, amount := 10, min := 50, expiration := 10 }

def c4Pool : Pool :=
  { configLenOk := true, configOwnerOk := true,
    config := { state := 1, seed := 0, authority := List.replicate 32 0,
                mint_x := List.replicate 32 0, mint_y := List.replicate 32 0,
                fee := 0, config_bump := 255 },
    vaultXOk := true, vaultYOk := true,
    lpSupply := 0, vaultX := 0, vaultY := 0,
    userX := 5000, userY := 5000, userLp := 0 }

def c5Pool : Pool :=
  { c2PoolD with config := { c2PoolD.config with state := 2 } }

def c6Pool : Pool :=
  { configLenOk := false, configOwnerOk := false,
    config := { state := 7, seed := 0, authority := [],
                mint_x := [], mint_y := [], fee := 60000, config_bump := 0 },
    vaultXOk := false, vaultYOk := false,
    lpSupply := 0, vaultX := 0, vaultY := 0,
    userX := 0, userY := 0, userLp := 0 }

def c7Bad : InitializeInstructionData :=
  { seed := 0, fee := 10000, mint_x := [], mint_y := [],
    config_bump := 0, lp_bump := 0, authority := [] }

def c7Good : InitializeInstructionData :=
  { seed := 0, fee := 30, mint_x := [], mint_y := [],
    config_bump := 0, lp_bump := 0, authority := [] }

def c7Cfg : Config :=
  { state := 1, seed := 0, authority := [], mint_x := [], mint_y := [],
    fee := 30, config_bump := 0 }

def c9Withd : List Nat := 1 :: List.replicate 31 0

def c9Dep : List Nat := 1 :: List.replicate 31 0

def c9Swap : List Nat := 1 :: 1 :: List.replicate 23 0

def c10Pool : Pool := c2PoolD

lemma swapOutput_le (rin rout eff : Nat) : swapOutput rin rout eff ≤ rout := by
  unfold swapOutput
  rcases Nat.eq_zero_or_pos eff with h | h
  · simp [h]
  · calc rout * eff / (rin + eff) ≤ rout * eff / eff :=
        Nat.div_le_div_left (Nat.le_add_left _ _) h
      _ = rout := Nat.mul_div_cancel _ h

lemma swap_product_lower (rin rout eff : Nat) :
    rin * rout ≤ (rin + eff) * (rout - swapOutput rin rout eff) := by
  have h2 : swapOutput rin rout eff ≤ rout := swapOutput_le rin rout eff
  have h1 : swapOutput rin rout eff * (rin + eff) ≤ rout * eff :=
    Nat.div_mul_le_self _ _
  zify [h2] at h1 ⊢
  nlinarith [h1]

lemma effectiveInput_le (a fee : Nat) : effectiveInput a fee ≤ a := by
  unfold effectiveInput
  calc a * (10000 - fee) / 10000 ≤ a * 10000 / 10000 :=
        Nat.div_le_div_right (Nat.mul_le_mul_left _ (Nat.sub_le _ _))
    _ = a := Nat.mul_div_cancel _ (by norm_num)

lemma swap_process_ok (now : Int) (d : SwapInstructionData) (p q : Pool)
    (h : Swap.process now d p = .ok q) :
    (d.isX = true ∧
        q.vaultX = p.vaultX + d.amount ∧
        q.vaultY = p.vaultY -
          swapOutput p.vaultX p.vaultY (effectiveInput d.amount p.config.fee)) ∨
    (d.isX = false ∧
        q.vaultY = p.vaultY + d.amount ∧
        q.vaultX = p.vaultX -
          swapOutput p.vaultY p.vaultX (effectiveInput d.amount p.config.fee)) := by
  unfold Swap.process at h
  by_cases hexp : d.expiration ≤ now
  · rw [if_pos hexp] at h; exact Except.noConfusion h
  rw [if_neg hexp] at h
  by_cases hlen : p.configLenOk = false
  · rw [if_pos hlen] at h; exact Except.noConfusion h
  rw [if_neg hlen] at h
  by_cases hown : p.configOwnerOk = false
  · rw [if_pos hown] at h; exact Except.noConfusion h
  rw [if_neg hown] at h
  by_cases hst : p.config.state ≠ AmmState.Initialized
  · rw [if_pos hst] at h; exact Except.noConfusion h
  rw [if_neg hst] at h
  by_cases hvx : p.vaultXOk = false
  · rw [if_pos hvx] at h; exact Except.noConfusion h
  rw [if_neg hvx] at h
  by_cases hvy : p.vaultYOk = false
  · rw [if_pos hvy] at h; exact Except.noConfusion h
  rw [if_neg hvy] at h
  cases hswap : ConstantProduct.swap p.vaultX p.vaultY p.config.fee
      d.isX d.amount d.min with
  | error e => simp only [hswap] at h; exact Except.noConfusion h
  | ok r =>
    simp only [hswap] at h
    unfold ConstantProduct.swap at hswap
    by_cases hmin : swapOutput (if d.isX then p.vaultX else p.vaultY)
        (if d.isX then p.vaultY else p.vaultX)
        (effectiveInput d.amount p.config.fee) < d.min
    · rw [if_pos hmin] at hswap; exact Except.noConfusion hswap
    rw [if_neg hmin] at hswap
    injection hswap with hr
    by_cases hz : r.deposit = 0 ∨ r.withdraw = 0
    · rw [if_pos hz] at h; exact Except.noConfusion h
    rw [if_neg hz] at h
    by_cases hx : d.isX = true
    · rw [if_pos hx] at h
      by_cases hu : p.userX < r.deposit
      · rw [if_pos hu] at h; exact Except.noConfusion h
      rw [if_neg hu] at h
      by_cases hv : p.vaultY < r.withdraw
      · rw [if_pos hv] at h; exact Except.noConfusion h
      rw [if_neg hv] at h
      injection h with hq
      subst hq
      left
      refine ⟨hx, ?_, ?_⟩ <;> simp [← hr, hx]
    · rw [if_neg hx] at h
      by_cases hu : p.userY < r.deposit
      · rw [if_pos hu] at h; exact Except.noConfusion h
      rw [if_neg hu] at h
      by_cases hv : p.vaultX < r.withdraw
      · rw [if_pos hv] at h; exact Except.noConfusion h
      rw [if_neg hv] at h
      injection h with hq
      subst hq
      right
      simp only [Bool.not_eq_true] at hx
      refine ⟨hx, ?_, ?_⟩ <;> simp [← hr, hx]


lemma runSwaps_product (hstep : ∀ (now : Int) (d : SwapInstructionData) (p q : Pool),
      Swap.process now d p = .ok q → p.vaultX * p.vaultY ≤ q.vaultX * q.vaultY) :
    ∀ (steps : List (Int × SwapInstructionData)) (p q : Pool),
      runSwaps steps p = .ok q → p.vaultX * p.vaultY ≤ q.vaultX * q.vaultY := by
  intro steps
  induction steps with
  | nil =>
    intro p q h
    unfold runSwaps at h
    injection h with hq
    subst hq
    exact le_refl _
  | cons hd tl ih =>
    obtain ⟨now, d⟩ := hd
    intro p q h
    unfold runSwaps at h
    cases hsp : Swap.process now d p with
    | error e => simp only [hsp] at h; exact Except.noConfusion h
    | ok r =>
      simp only [hsp] at h
      exact le_trans (hstep now d p r hsp) (ih r q h)

/-- C1: a successful swap never decreases the reserve product: with input
reserve `rin`, output reserve `rout` and effective input
`eff = amount * (10000 - fee) / 10000`, the output `o` satisfies
`(rin + eff) * (rout - o) ≥ rin * rout`, and across any successful sequence
of swaps the product `vaultX * vaultY` is monotonically non-decreasing. -/
theorem claim_C1 :
    (∀ (now : Int) (d : SwapInstructionData) (p q : Pool),
       Swap.process now d p = .ok q →
         ((if d.isX then p.vaultX else p.vaultY) +
             effectiveInput d.amount p.config.fee) *
           ((if d.isX then p.vaultY else p.vaultX) -
             swapOutput (if d.isX then p.vaultX else p.vaultY)
               (if d.isX then p.vaultY else p.vaultX)
               (effectiveInput d.amount p.config.fee)) ≥
           p.vaultX * p.vaultY ∧
         q.vaultX * q.vaultY ≥ p.vaultX * p.vaultY) ∧
    (∀ (steps : List (Int × SwapInstructionData)) (p q : Pool),
       runSwaps steps p = .ok q →
         q.vaultX * q.vaultY ≥ p.vaultX * p.vaultY) := by
  have hstep : ∀ (now : Int) (d : SwapInstructionData) (p q : Pool),
      Swap.process now d p = .ok q → p.vaultX * p.vaultY ≤ q.vaultX * q.vaultY := by
    intro now d p q h
    rcases swap_process_ok now d p q h with ⟨hx, h1, h2⟩ | ⟨hx, h1, h2⟩
    · rw [h1, h2]
      calc p.vaultX * p.vaultY
          ≤ (p.vaultX + effectiveInput d.amount p.config.fee) *
              (p.vaultY - swapOutput p.vaultX p.vaultY
                (effectiveInput d.amount p.config.fee)) :=
            swap_product_lower _ _ _
        _ ≤ (p.vaultX + d.amount) *
              (p.vaultY - swapOutput p.vaultX p.vaultY
                (effectiveInput d.amount p.config.fee)) :=
            mul_le_mul_right' (Nat.add_le_add_left (effectiveInput_le _ _) _) _
    · rw [h1, h2]
      calc p.vaultX * p.vaultY
          = p.vaultY * p.vaultX := mul_comm _ _
        _ ≤ (p.vaultY + effectiveInput d.amount p.config.fee) *
              (p.vaultX - swapOutput p.vaultY p.vaultX
                (effectiveInput d.amount p.config.fee)) :=
            swap_product_lower _ _ _
        _ ≤ (p.vaultY + d.amount) *
              (p.vaultX - swapOutput p.vaultY p.vaultX
                (effectiveInput d.amount p.config.fee)) :=
            mul_le_mul_right' (Nat.add_le_add_left (effectiveInput_le _ _) _) _
        _ = (p.vaultX - swapOutput p.vaultY p.vaultX
              (effectiveInput d.amount p.config.fee)) * (p.vaultY + d.amount) :=
            mul_comm _ _
  constructor
  · intro now d p q h
    refine ⟨?_, hstep now d p q h⟩
    rcases swap_process_ok now d p q h with ⟨hx, _, _⟩ | ⟨hx, _, _⟩
    · simp only [hx, if_true]
      exact swap_product_lower _ _ _
    · simp only [hx, Bool.false_eq_true, if_false]
      calc p.vaultX * p.vaultY
          = p.vaultY * p.vaultX := mul_comm _ _
        _ ≤ _ := swap_product_lower _ _ _
  · exact fun steps p q h => runSwaps_product hstep steps p q h




/-- Witness for C1 at a concrete successful swap. -/
theorem claim_C1_witness :
    Swap.process 0 c1Data c1Pool = .ok c1PoolAfter ∧
    c1PoolAfter.vaultX * c1PoolAfter.vaultY ≥ c1Pool.vaultX * c1Pool.vaultY :=
  ⟨by rfl, (claim_C1.1 0 c1Data c1Pool c1PoolAfter (by rfl)).2⟩


/-- C2: a Deposit whose computed amounts exceed the caller ceilings, a
Withdraw whose computed amounts fall below the caller floors, and a Swap
whose computed output is below `min` each fail with an error (the embedding
returns no new state on error, so no account state is changed). -/
theorem claim_C2 :
    (∀ (now : Int) (d : DepositInstructionData) (p : Pool) (x y : Nat),
       ¬ d.expiration ≤ now → p.configLenOk = true → p.configOwnerOk = true →
       p.config.state = AmmState.Initialized →
       p.vaultXOk = true → p.vaultYOk = true →
       depositAmounts p d = .ok (x, y) → (d.max_x < x ∨ d.max_y < y) →
       Deposit.process now d p = .error .InvalidArgument) ∧
    (∀ (now : Int) (d : WithdrawInstructionData) (p : Pool) (x y : Nat),
       ¬ d.expiration ≤ now → p.configLenOk = true → p.configOwnerOk = true →
       p.config.state ≠ AmmState.Disabled →
       p.vaultXOk = true → p.vaultYOk = true →
       withdrawAmounts p d = .ok (x, y) → (x < d.min_x ∨ y < d.min_y) →
       Withdraw.process now d p = .error .InvalidArgument) ∧
    (∀ (now : Int) (d : SwapInstructionData) (p : Pool),
       ¬ d.expiration ≤ now → p.configLenOk = true → p.configOwnerOk = true →
       p.config.state = AmmState.Initialized →
       p.vaultXOk = true → p.vaultYOk = true →
       swapOutput (if d.isX then p.vaultX else p.vaultY)
         (if d.isX then p.vaultY else p.vaultX)
         (effectiveInput d.amount p.config.fee) < d.min →
       Swap.process now d p = .error (.Custom 1)) := by
  refine ⟨?_, ?_, ?_⟩
  · intro now d p x y hexp hlen hown hst hvx hvy hxy hslip
    unfold Deposit.process
    rw [if_neg hexp, if_neg (by simp [hlen]), if_neg (by simp [hown]),
        if_neg (by simp [hst]), if_neg (by simp [hvx]), if_neg (by simp [hvy])]
    simp only [hxy]
    rw [if_pos (by omega)]
  · intro now d p x y hexp hlen hown hst hvx hvy hxy hslip
    unfold Withdraw.process
    rw [if_neg hexp, if_neg (by simp [hlen]), if_neg (by simp [hown]),
        if_neg hst, if_neg (by simp [hvx]), if_neg (by simp [hvy])]
    simp only [hxy]
    rw [if_pos (by omega)]
  · intro now d p hexp hlen hown hst hvx hvy hmin
    have hsw : ConstantProduct.swap p.vaultX p.vaultY p.config.fee
        d.isX d.amount d.min = .error (.Custom 0) := by
      unfold ConstantProduct.swap
      rw [if_pos hmin]
    unfold Swap.process
    rw [if_neg hexp, if_neg (by simp [hlen]), if_neg (by simp [hown]),
        if_neg (by simp [hst]), if_neg (by simp [hvx]), if_neg (by simp [hvy])]
    simp only [hsw]





/-- Witness for C2 at concrete slippage violations of all three kinds. -/
theorem claim_C2_witness :
    Deposit.process 0 c2DataD c2PoolD = .error .InvalidArgument ∧
    Withdraw.process 0 c2DataW c2PoolD = .error .InvalidArgument ∧
    Swap.process 0 c2DataS c2PoolD = .error (.Custom 1) :=
  ⟨claim_C2.1 0 c2DataD c2PoolD 50 50 (by decide) rfl rfl rfl rfl rfl (by rfl)
      (by decide),
   claim_C2.2.1 0 c2DataW c2PoolD 50 50 (by decide) rfl rfl (by decide) rfl rfl
      (by rfl) (by decide),
   claim_C2.2.2 0 c2DataS c2PoolD (by decide) rfl rfl rfl rfl rfl (by decide)⟩

/-- C3: a Withdraw burning the entire outstanding share supply transfers
out exactly the full reserve balances, leaving both reserves at zero. -/
theorem claim_C3 (now : Int) (d : WithdrawInstructionData) (p q : Pool)
    (h : Withdraw.process now d p = .ok q) (hall : d.amount = p.lpSupply) :
    q.vaultX = 0 ∧ q.vaultY = 0 ∧
    q.userX = p.userX + p.vaultX ∧ q.userY = p.userY + p.vaultY := by
  have hw : withdrawAmounts p d = .ok (p.vaultX, p.vaultY) := by
    unfold withdrawAmounts
    rw [if_pos hall.symm]
  unfold Withdraw.process at h
  by_cases hexp : d.expiration ≤ now
  · rw [if_pos hexp] at h; exact Except.noConfusion h
  rw [if_neg hexp] at h
  by_cases hlen : p.configLenOk = false
  · rw [if_pos hlen] at h; exact Except.noConfusion h
  rw [if_neg hlen] at h
  by_cases hown : p.configOwnerOk = false
  · rw [if_pos hown] at h; exact Except.noConfusion h
  rw [if_neg hown] at h
  by_cases hst : p.config.state = AmmState.Disabled
  · rw [if_pos hst] at h; exact Except.noConfusion h
  rw [if_neg hst] at h
  by_cases hvx : p.vaultXOk = false
  · rw [if_pos hvx] at h; exact Except.noConfusion h
  rw [if_neg hvx] at h
  by_cases hvy : p.vaultYOk = false
  · rw [if_pos hvy] at h; exact Except.noConfusion h
  rw [if_neg hvy] at h
  simp only [hw] at h
  by_cases hslip : ¬ (d.min_x ≤ p.vaultX ∧ d.min_y ≤ p.vaultY)
  · rw [if_pos hslip] at h; exact Except.noConfusion h
  rw [if_neg hslip] at h
  rw [if_neg (lt_irrefl p.vaultX), if_neg (lt_irrefl p.vaultY)] at h
  by_cases hlp : p.userLp < d.amount
  · rw [if_pos hlp] at h; exact Except.noConfusion h
  rw [if_neg hlp] at h
  injection h with hq
  subst hq
  refine ⟨?_, ?_, rfl, rfl⟩ <;> simp

/-- Witness for C3 at a concrete full exit. -/
theorem claim_C3_witness :
    Withdraw.process 0
      { amount := 100, min_x := 0, min_y := 0, expiration := 10 } c2PoolD =
      .ok { c2PoolD with vaultX := 0, vaultY := 0, userX := 1100, userY := 1100,
                         lpSupply := 0, userLp := 0 } ∧
    ({ c2PoolD with vaultX := 0, vaultY := 0, userX := 1100, userY := 1100,
                    lpSupply := 0, userLp := 0 } : Pool).vaultX = 0 :=
  ⟨by rfl,
   (claim_C3 0 { amount := 100, min_x := 0, min_y := 0, expiration := 10 }
      c2PoolD _ (by rfl) rfl).1⟩

/-- C4: the first deposit into an empty pool (zero supply, zero reserves)
takes the caller ceilings literally and mints exactly `amount` shares. -/
theorem claim_C4 (now : Int) (d : DepositInstructionData) (p q : Pool)
    (h : Deposit.process now d p = .ok q) (h0 : p.lpSupply = 0)
    (hx : p.vaultX = 0) (hy : p.vaultY = 0) :
    q.vaultX = d.max_x ∧ q.vaultY = d.max_y ∧ q.lpSupply = d.amount := by
  have ha : depositAmounts p d = .ok (d.max_x, d.max_y) := by
    unfold depositAmounts
    rw [if_pos ⟨h0, hx, hy⟩]
  unfold Deposit.process at h
  by_cases hexp : d.expiration ≤ now
  · rw [if_pos hexp] at h; exact Except.noConfusion h
  rw [if_neg hexp] at h
  by_cases hlen : p.configLenOk = false
  · rw [if_pos hlen] at h; exact Except.noConfusion h
  rw [if_neg hlen] at h
  by_cases hown : p.configOwnerOk = false
  · rw [if_pos hown] at h; exact Except.noConfusion h
  rw [if_neg hown] at h
  by_cases hst : p.config.state ≠ AmmState.Initialized
  · rw [if_pos hst] at h; exact Except.noConfusion h
  rw [if_neg hst] at h
  by_cases hvx : p.vaultXOk = false
  · rw [if_pos hvx] at h; exact Except.noConfusion h
  rw [if_neg hvx] at h
  by_cases hvy : p.vaultYOk = false
  · rw [if_pos hvy] at h; exact Except.noConfusion h
  rw [if_neg hvy] at h
  simp only [ha] at h
  rw [if_neg (by simp)] at h
  by_cases hux : p.userX < d.max_x
  · rw [if_pos hux] at h; exact Except.noConfusion h
  rw [if_neg hux] at h
  by_cases huy : p.userY < d.max_y
  · rw [if_pos huy] at h; exact Except.noConfusion h
  rw [if_neg huy] at h
  injection h with hq
  subst hq
  refine ⟨?_, ?_, ?_⟩ <;> simp [h0, hx, hy]


/-- Witness for C4 at the concrete `max_x = 1000, max_y = 2000,
amount = 500` first deposit of the claim. -/
theorem claim_C4_witness :
    Deposit.process 0
      { amount := 500, max_x := 1000, max_y := 2000, expiration := 10 } c4Pool =
      .ok { c4Pool with vaultX := 1000, vaultY := 2000, userX := 4000,
                        userY := 3000, lpSupply := 500, userLp := 500 } ∧
    ({ c4Pool with vaultX := 1000, vaultY := 2000, userX := 4000,
                   userY := 3000, lpSupply := 500, userLp := 500 } : Pool).vaultX
        = 1000 ∧
    ({ c4Pool with vaultX := 1000, vaultY := 2000, userX := 4000,
                   userY := 3000, lpSupply := 500, userLp := 500 } : Pool).vaultY
        = 2000 ∧
    ({ c4Pool with vaultX := 1000, vaultY := 2000, userX := 4000,
                   userY := 3000, lpSupply := 500, userLp := 500 } : Pool).lpSupply
        = 500 :=
  ⟨by rfl,
   (claim_C4 0 { amount := 500, max_x := 1000, max_y := 2000, expiration := 10 }
      c4Pool _ (by rfl) rfl rfl rfl).1,
   (claim_C4 0 { amount := 500, max_x := 1000, max_y := 2000, expiration := 10 }
      c4Pool _ (by rfl) rfl rfl rfl).2.1,
   (claim_C4 0 { amount := 500, max_x := 1000, max_y := 2000, expiration := 10 }
      c4Pool _ (by rfl) rfl rfl rfl).2.2⟩


/-- C5: with a loadable config and an unexpired order, Deposit and Swap
fail with the invalid-state error in every state other than `Initialized`,
and Withdraw fails with it in the `Disabled` state. -/
theorem claim_C5 :
    (∀ (now : Int) (d : DepositInstructionData) (p : Pool),
       ¬ d.expiration ≤ now → p.configLenOk = true → p.configOwnerOk = true →
       p.config.state ≠ AmmState.Initialized →
       Deposit.process now d p = .error .InvalidAccountData) ∧
    (∀ (now : Int) (d : SwapInstructionData) (p : Pool),
       ¬ d.expiration ≤ now → p.configLenOk = true → p.configOwnerOk = true →
       p.config.state ≠ AmmState.Initialized →
       Swap.process now d p = .error .InvalidAccountData) ∧
    (∀ (now : Int) (d : WithdrawInstructionData) (p : Pool),
       ¬ d.expiration ≤ now → p.configLenOk = true → p.configOwnerOk = true →
       p.config.state = AmmState.Disabled →
       Withdraw.process now d p = .error .InvalidAccountData) := by
  refine ⟨?_, ?_, ?_⟩
  · intro now d p hexp hlen hown hst
    unfold Deposit.process
    rw [if_neg hexp, if_neg (by simp [hlen]), if_neg (by simp [hown]),
        if_pos hst]
  · intro now d p hexp hlen hown hst
    unfold Swap.process
    rw [if_neg hexp, if_neg (by simp [hlen]), if_neg (by simp [hown]),
        if_pos hst]
  · intro now d p hexp hlen hown hst
    unfold Withdraw.process
    rw [if_neg hexp, if_neg (by simp [hlen]), if_neg (by simp [hown]),
        if_pos hst]


/-- Witness for C5 at a concrete disabled pool. -/
theorem claim_C5_witness :
    Deposit.process 0 c2DataD c5Pool = .error .InvalidAccountData ∧
    Swap.process 0 c2DataS c5Pool = .error .InvalidAccountData ∧
    Withdraw.process 0 c2DataW c5Pool = .error .InvalidAccountData :=
  ⟨claim_C5.1 0 c2DataD c5Pool (by decide) rfl rfl (by decide),
   claim_C5.2.1 0 c2DataS c5Pool (by decide) rfl rfl (by decide),
   claim_C5.2.2 0 c2DataW c5Pool (by decide) rfl rfl rfl⟩

/-- C6: an expired order (`expiration ≤ now`) makes Deposit, Withdraw and
Swap fail with the order-expired error `Custom 1` for every pool state
whatsoever — including pools whose config would not even load and whose
reserve addresses would not verify, so the failure precedes every other
validation. -/
theorem claim_C6 :
    (∀ (now : Int) (d : DepositInstructionData) (p : Pool),
       d.expiration ≤ now → Deposit.process now d p = .error (.Custom 1)) ∧
    (∀ (now : Int) (d : WithdrawInstructionData) (p : Pool),
       d.expiration ≤ now → Withdraw.process now d p = .error (.Custom 1)) ∧
    (∀ (now : Int) (d : SwapInstructionData) (p : Pool),
       d.expiration ≤ now → Swap.process now d p = .error (.Custom 1)) := by
  refine ⟨?_, ?_, ?_⟩
  · intro now d p hexp
    unfold Deposit.process
    rw [if_pos hexp]
  · intro now d p hexp
    unfold Withdraw.process
    rw [if_pos hexp]
  · intro now d p hexp
    unfold Swap.process
    rw [if_pos hexp]


/-- Witness for C6 at an expired order against a pool that would fail every
later check. -/
theorem claim_C6_witness :
    Deposit.process 5 { amount := 1, max_x := 1, max_y := 1, expiration := 5 }
        c6Pool = .error (.Custom 1) ∧
    Withdraw.process 5 { amount := 1, min_x := 0, min_y := 0, expiration := 5 }
        c6Pool = .error (.Custom 1) ∧
    Swap.process 5 { is_x := 1, amount := 1, min := 1, expiration := 5 }
        c6Pool = .error (.Custom 1) :=
  ⟨claim_C6.1 5 _ c6Pool (by decide),
   claim_C6.2.1 5 _ c6Pool (by decide),
   claim_C6.2.2 5 _ c6Pool (by decide)⟩

lemma set_inner_ok_fee (c c2 : Config) (seed : Nat) (authority mx my : List Nat)
    (fee bump : Nat)
    (h : c.set_inner seed authority mx my fee bump = .ok c2) :
    c2.fee = fee ∧ fee < 10000 := by
  unfold Config.set_inner at h
  cases hst : c.set_state AmmState.Initialized with
  | error e =>
    unfold Config.set_state at hst
    rw [if_neg (by decide)] at hst
    exact Except.noConfusion hst
  | ok c1 =>
    simp only [hst] at h
    cases hsf : Config.set_fee
        { c1 with seed := seed, authority := authority,
                  mint_x := mx, mint_y := my } fee with
    | error e =>
      simp only [hsf] at h
      exact Except.noConfusion h
    | ok c3 =>
      simp only [hsf] at h
      injection h with hq
      subst hq
      unfold Config.set_fee at hsf
      by_cases hf : 10000 ≤ fee
      · rw [if_pos hf] at hsf
        exact Except.noConfusion hsf
      · rw [if_neg hf] at hsf
        injection hsf with hc
        subst hc
        exact ⟨rfl, by omega⟩

lemma set_inner_fee_fail (c : Config) (seed : Nat)
    (authority mx my : List Nat) (fee bump : Nat) (hf : 10000 ≤ fee) :
    c.set_inner seed authority mx my fee bump = .error .InvalidAccountData := by
  unfold Config.set_inner
  cases hst : c.set_state AmmState.Initialized with
  | error e =>
    unfold Config.set_state at hst
    rw [if_neg (by decide)] at hst
    exact Except.noConfusion hst
  | ok c1 =>
    have hsf : Config.set_fee
        { c1 with seed := seed, authority := authority,
                  mint_x := mx, mint_y := my } fee =
        .error .InvalidAccountData := by
      unfold Config.set_fee
      rw [if_pos hf]
    simp only [hsf]

/-- C7: the stored fee is always below 10000 basis points — `set_fee`
rejects any fee of 10000 or more, Initialize fails for any such fee, and
every successful `set_fee` or Initialize leaves a fee below 10000. -/
theorem claim_C7 :
    (∀ (c : Config) (f : Nat), 10000 ≤ f →
       c.set_fee f = .error .InvalidAccountData) ∧
    (∀ (c c2 : Config) (f : Nat), c.set_fee f = .ok c2 →
       c2.fee = f ∧ f < 10000) ∧
    (∀ (d : InitializeInstructionData) (b1 b2 : Bool), 10000 ≤ d.fee →
       ∃ e, Initialize.process d b1 b2 = .error e) ∧
    (∀ (d : InitializeInstructionData) (b1 b2 : Bool) (c : Config),
       Initialize.process d b1 b2 = .ok c → c.fee = d.fee ∧ c.fee < 10000) := by
  refine ⟨?_, ?_, ?_, ?_⟩
  · intro c f hf
    unfold Config.set_fee
    rw [if_pos hf]
  · intro c c2 f h
    unfold Config.set_fee at h
    by_cases hf : 10000 ≤ f
    · rw [if_pos hf] at h
      exact Except.noConfusion h
    · rw [if_neg hf] at h
      injection h with hc
      subst hc
      exact ⟨rfl, by omega⟩
  · intro d b1 b2 hf
    unfold Initialize.process
    by_cases hb1 : b1 = false
    · rw [if_pos hb1]
      exact ⟨_, rfl⟩
    · rw [if_neg hb1]
      simp only [set_inner_fee_fail Config.zeroed d.seed d.authority d.mint_x
        d.mint_y d.fee d.config_bump hf]
      exact ⟨_, rfl⟩
  · intro d b1 b2 c h
    unfold Initialize.process at h
    by_cases hb1 : b1 = false
    · rw [if_pos hb1] at h
      exact Except.noConfusion h
    rw [if_neg hb1] at h
    cases hsi : Config.zeroed.set_inner d.seed d.authority d.mint_x d.mint_y
        d.fee d.config_bump with
    | error e =>
      simp only [hsi] at h
      exact Except.noConfusion h
    | ok c0 =>
      simp only [hsi] at h
      by_cases hb2 : b2 = false
      · rw [if_pos hb2] at h
        exact Except.noConfusion h
      rw [if_neg hb2] at h
      injection h with hc
      subst hc
      obtain ⟨h1, h2⟩ := set_inner_ok_fee _ _ _ _ _ _ _ _ hsi
      exact ⟨h1, h1 ▸ h2⟩




/-- Witness for C7: `set_fee` rejects 10000 and accepts 30; Initialize
rejects a 10000 fee and accepts a 30 fee storing it. -/
theorem claim_C7_witness :
    Config.zeroed.set_fee 10000 = .error .InvalidAccountData ∧
    (({ Config.zeroed with fee := 30 } : Config).fee = 30 ∧ 30 < 10000) ∧
    (∃ e, Initialize.process c7Bad true true = .error e) ∧
    (c7Cfg.fee = c7Good.fee ∧ c7Cfg.fee < 10000) :=
  ⟨claim_C7.1 Config.zeroed 10000 (by decide),
   claim_C7.2.1 Config.zeroed { Config.zeroed with fee := 30 } 30 (by rfl),
   claim_C7.2.2.1 c7Bad true true (by decide),
   claim_C7.2.2.2 c7Good true true c7Cfg (by rfl)⟩


/-- C8: the Initialize payload decoder accepts exactly the 108-byte full
layout (trailing 32-byte authority kept) and the 76-byte layout (authority
zero-filled), and rejects every other length with a decode error. -/
theorem claim_C8 :
    (∀ data : List Nat,
       (∃ r, InitializeInstructionData.try_from data = .ok r) ↔
         (data.length = 108 ∨ data.length = 76)) ∧
    (∀ (data : List Nat) (r : InitializeInstructionData),
       InitializeInstructionData.try_from data = .ok r →
       data.length = 76 → r.authority = List.replicate 32 0) ∧
    (∀ (data : List Nat) (r : InitializeInstructionData),
       InitializeInstructionData.try_from data = .ok r →
       data.length = 108 → r.authority = data.drop 76) ∧
    (∀ data : List Nat, data.length ≠ 108 → data.length ≠ 76 →
       InitializeInstructionData.try_from data =
         .error .InvalidInstructionData) := by
  refine ⟨?_, ?_, ?_, ?_⟩
  · intro data
    constructor
    · rintro ⟨r, hr⟩
      unfold InitializeInstructionData.try_from at hr
      by_cases hl : data.length = 108 ∨ data.length = 76
      · exact hl
      · rw [if_neg hl] at hr
        exact Except.noConfusion hr
    · intro hl
      unfold InitializeInstructionData.try_from
      rw [if_pos hl]
      exact ⟨_, rfl⟩
  · intro data r hr h76
    unfold InitializeInstructionData.try_from at hr
    rw [if_pos (Or.inr h76)] at hr
    injection hr with hrec
    subst hrec
    simp [h76]
  · intro data r hr h108
    unfold InitializeInstructionData.try_from at hr
    rw [if_pos (Or.inl h108)] at hr
    injection hr with hrec
    subst hrec
    simp [h108]
  · intro data h1 h2
    unfold InitializeInstructionData.try_from
    rw [if_neg (by simp [h1, h2])]

/-- Witness for C8 at concrete 76-, 108- and 5-byte payloads. -/
theorem claim_C8_witness :
    (∃ r, InitializeInstructionData.try_from (List.replicate 76 1) = .ok r) ∧
    (∀ r, InitializeInstructionData.try_from (List.replicate 76 1) = .ok r →
       r.authority = List.replicate 32 0) ∧
    (∀ r, InitializeInstructionData.try_from (List.replicate 108 2) = .ok r →
       r.authority = (List.replicate 108 2).drop 76) ∧
    InitializeInstructionData.try_from [0, 1, 2, 3, 4] =
      .error .InvalidInstructionData :=
  ⟨(claim_C8.1 (List.replicate 76 1)).2 (Or.inr (by decide)),
   fun r hr => claim_C8.2.1 (List.replicate 76 1) r hr (by decide),
   fun r hr => claim_C8.2.2.1 (List.replicate 108 2) r hr (by decide),
   claim_C8.2.2.2 [0, 1, 2, 3, 4] (by decide) (by decide)⟩

/-- C9: the Withdraw decoder accepts every 32-byte payload with a nonzero
`amount`, placing no positivity demand on `min_x`/`min_y`; by contrast the
Deposit decoder rejects a zero `max_x` or `max_y` and the Swap decoder
rejects a zero `min`. -/
theorem claim_C9 :
    (∀ data : List Nat, data.length = 32 → readLE (data.take 8) ≠ 0 →
       ∃ r, Withdraw.try_from data = .ok r ∧
         r.min_x = readLE ((data.drop 8).take 8) ∧
         r.min_y = readLE ((data.drop 16).take 8)) ∧
    (∀ data : List Nat, data.length = 32 →
       (readLE ((data.drop 8).take 8) = 0 ∨
         readLE ((data.drop 16).take 8) = 0) →
       Deposit.try_from data = .error .InvalidInstructionData) ∧
    (∀ data : List Nat, data.length = 25 →
       readLE ((data.drop 9).take 8) = 0 →
       Swap.try_from data = .error .InvalidInstructionData) := by
  refine ⟨?_, ?_, ?_⟩
  · intro data hlen hamt
    have hd : WithdrawInstructionData.try_from data =
        .ok { amount := readLE (data.take 8),
              min_x := readLE ((data.drop 8).take 8),
              min_y := readLE ((data.drop 16).take 8),
              expiration := toI64 (readLE ((data.drop 24).take 8)) } := by
      unfold WithdrawInstructionData.try_from
      rw [if_pos hlen]
    unfold Withdraw.try_from
    simp only [hd]
    rw [if_neg (by simpa using hamt)]
    exact ⟨_, rfl, rfl, rfl⟩
  · intro data hlen hz
    have hd : DepositInstructionData.try_from data =
        .ok { amount := readLE (data.take 8),
              max_x := readLE ((data.drop 8).take 8),
              max_y := readLE ((data.drop 16).take 8),
              expiration := toI64 (readLE ((data.drop 24).take 8)) } := by
      unfold DepositInstructionData.try_from
      rw [if_pos hlen]
    unfold Deposit.try_from
    simp only [hd]
    rw [if_pos (by rcases hz with hz | hz
                   · exact Or.inr (Or.inl hz)
                   · exact Or.inr (Or.inr hz))]
  · intro data hlen hz
    have hd : SwapInstructionData.try_from data =
        .ok { is_x := data.headD 0,
              amount := readLE ((data.drop 1).take 8),
              min := readLE ((data.drop 9).take 8),
              expiration := toI64 (readLE ((data.drop 17).take 8)) } := by
      unfold SwapInstructionData.try_from
      rw [if_pos hlen]
    unfold Swap.try_from
    simp only [hd]
    rw [if_pos (Or.inr hz)]




/-- Witness for C9: a 32-byte withdraw payload with `amount = 1` and both
minimums zero decodes, while the analogous deposit payload (zero maxima)
and swap payload (zero `min`) are rejected. -/
theorem claim_C9_witness :
    (∃ r, Withdraw.try_from c9Withd = .ok r ∧ r.min_x = readLE ((c9Withd.drop 8).take 8) ∧
       r.min_y = readLE ((c9Withd.drop 16).take 8)) ∧
    Deposit.try_from c9Dep = .error .InvalidInstructionData ∧
    Swap.try_from c9Swap = .error .InvalidInstructionData :=
  ⟨claim_C9.1 c9Withd (by decide) (by decide),
   claim_C9.2.1 c9Dep (by decide) (by decide),
   claim_C9.2.2 c9Swap (by decide) (by decide)⟩

/-- C10: the swap direction flag means "token-X input" for every nonzero
byte, not only 1: the decoded flag tests nonzero, a nonzero flag byte makes
the swap behave exactly as flag 1 (pool receives X), and only flag byte 0
selects the token-Y input direction. -/
theorem claim_C10 :
    (∀ (data : List Nat) (r : SwapInstructionData),
       SwapInstructionData.try_from data = .ok r →
       (r.isX = true ↔ data.headD 0 ≠ 0)) ∧
    (∀ (now : Int) (b a m : Nat) (e : Int) (p : Pool), b ≠ 0 →
       Swap.process now { is_x := b, amount := a, min := m, expiration := e } p =
       Swap.process now { is_x := 1, amount := a, min := m, expiration := e } p) ∧
    (∀ (now : Int) (b a m : Nat) (e : Int) (p q : Pool), b ≠ 0 →
       Swap.process now { is_x := b, amount := a, min := m, expiration := e } p =
         .ok q → q.vaultX = p.vaultX + a) ∧
    (∀ (now : Int) (a m : Nat) (e : Int) (p q : Pool),
       Swap.process now { is_x := 0, amount := a, min := m, expiration := e } p =
         .ok q → q.vaultY = p.vaultY + a) := by
  refine ⟨?_, ?_, ?_, ?_⟩
  · intro data r hr
    unfold SwapInstructionData.try_from at hr
    by_cases hl : data.length = 25
    · rw [if_pos hl] at hr
      injection hr with hrec
      subst hrec
      simp [SwapInstructionData.isX]
    · rw [if_neg hl] at hr
      exact Except.noConfusion hr
  · intro now b a m e p hb
    have hx : ({ is_x := b, amount := a, min := m, expiration := e } :
        SwapInstructionData).isX = true := by
      simp [SwapInstructionData.isX, hb]
    have hx1 : ({ is_x := 1, amount := a, min := m, expiration := e } :
        SwapInstructionData).isX = true := by
      simp [SwapInstructionData.isX]
    unfold Swap.process
    rw [hx, hx1]
  · intro now b a m e p q hb h
    rcases swap_process_ok now _ p q h with ⟨_, h1, _⟩ | ⟨hx, _, _⟩
    · exact h1
    · simp [SwapInstructionData.isX, hb] at hx
  · intro now a m e p q h
    rcases swap_process_ok now _ p q h with ⟨hx, _, _⟩ | ⟨_, h1, _⟩
    · simp [SwapInstructionData.isX] at hx
    · exact h1


/-- Witness for C10: flag byte 2 decodes as the X direction and swaps
exactly like flag byte 1. -/
theorem claim_C10_witness :
    (∀ r, SwapInstructionData.try_from (2 :: 1 :: List.replicate 23 0) = .ok r →
       (r.isX = true ↔ ((2 :: 1 :: List.replicate 23 0).headD 0 ≠ 0))) ∧
    Swap.process 0 { is_x := 2, amount := 10, min := 1, expiration := 10 }
        c10Pool =
      Swap.process 0 { is_x := 1, amount := 10, min := 1, expiration := 10 }
        c10Pool :=
  ⟨fun r hr => claim_C10.1 (2 :: 1 :: List.replicate 23 0) r hr,
   claim_C10.2.1 0 2 10 1 10 c10Pool (by decide)⟩

end NativeAmm
